import Mathlib

/-
Verification of the Carrot delimiter-separated table manager
(src/Carrot.py).  Text is modelled as List Char; Python str.split,
str.rstrip and str.join are modelled character by character.  Python
runtime errors (CarrotError, TypeError, AttributeError, IndexError)
are modelled by an explicit error type, and every fallible method of
BaseCarrot becomes a function into Except.
-/

namespace Carrot

/-- Characters removed by Python str.rstrip with no argument, restricted
to the ASCII whitespace set; the source only ever strips newlines and
spaces at the end of the file text. -/
def pyIsSpace (c : Char) : Bool :=
  c == ' ' || c == '\t' || c == '\n' || c == '\r' || c == '\x0b' || c == '\x0c'

/-- Python str.rstrip with no argument: remove trailing whitespace. -/
def pyRstrip (s : List Char) : List Char :=
  (s.reverse.dropWhile pyIsSpace).reverse

/-- Greedy left-to-right scan behind pySplit.  The counter holds the
number of separator characters still to be skipped after a match; a new
separator match is only attempted when the counter is zero, which gives
the same greedy semantics as Python str.split with a non-empty
separator. -/
def splitAux (sep : List Char) : List Char → Nat → List Char → List (List Char)
  | [], _, acc => [acc.reverse]
  | _ :: rest, Nat.succ n, acc => splitAux sep rest n acc
  | c :: rest, 0, acc =>
    if sep.isPrefixOf (c :: rest) then
      acc.reverse :: splitAux sep rest (sep.length - 1) []
    else
      splitAux sep rest 0 (c :: acc)

/-- Python str.split with a separator argument.  Python rejects an empty
separator with ValueError and the source never passes one; the value in
that branch is arbitrary. -/
def pySplit (sep s : List Char) : List (List Char) :=
  match sep with
  | [] => [s]
  | _ :: _ => splitAux sep s 0 []

/-- Python sep.join over a list of strings. -/
def pyJoin (sep : List Char) : List (List Char) → List Char
  | [] => []
  | [x] => x
  | x :: y :: xs => x ++ sep ++ pyJoin sep (y :: xs)

/-- A stored line of the table.  parse stores each line as a tuple of
field strings (tup); BaseCarrot.add appends a plain Python string to
self.lines (raw), so both shapes occur at runtime. -/
inductive Row where
  | tup : List (List Char) → Row
  | raw : List Char → Row
deriving DecidableEq

/-- Python len of a stored line: the number of fields of a tuple, the
number of characters of a plain string. -/
def rowLen : Row → Nat
  | .tup fs => fs.length
  | .raw s => s.length

/-- Python line[i] for a stored line: a field of a tuple, a one-character
string of a plain string; none models IndexError. -/
def rowGet : Row → Nat → Option (List Char)
  | .tup fs, i => fs.get? i
  | .raw s, i => (s.get? i).map (fun c => [c])

/-- Python sep.join(line): joining a tuple joins its fields, joining a
plain string joins its characters. -/
def rowJoin (sep : List Char) : Row → List Char
  | .tup fs => pyJoin sep fs
  | .raw s => pyJoin sep (s.map (fun c => [c]))

/-- In-memory state of a BaseCarrot instance: self.columns (the header
tuple produced by parse), self.lines and self.sep. -/
structure Table where
  columns : List (List Char)
  rows : List Row
  sep : List Char
deriving DecidableEq

/-- The distinct CarrotError messages raised by the source. -/
inductive CarrotMsg where
  /-- Raised by _column_id and getColumn for a name absent from columns. -/
  | unknownColumn
  /-- Raised by add when fewer fields than columns are supplied. -/
  | tooFewColumns
  /-- Raised by add when more fields than columns are supplied. -/
  | tooManyColumns
deriving DecidableEq

/-- Python exceptions that can escape the modelled methods. -/
inductive PyErr where
  | carrot : CarrotMsg → PyErr
  | typeError
  | attributeError
  | indexError
deriving DecidableEq

/-- BaseCarrot.parse: read the stream, rstrip, split on newline, split
each line on the separator into a tuple; the first line is popped off as
self.columns, the rest stay as self.lines.  pySplit never returns an
empty list, so the headD default is never used (pop(0) cannot fail). -/
def parse (text sep : List Char) : Table :=
  let ls := (pySplit ['\n'] (pyRstrip text)).map (fun l => pySplit sep l)
  { columns := ls.headD [], rows := (ls.drop 1).map Row.tup, sep := sep }

/-- BaseCarrot.submit with the default separator argument: the text
written to the stream, namely sep.join(columns) concatenated directly
with the newline-join of the per-line joins.  The source places no
newline between the two parts. -/
def submit (t : Table) : List Char :=
  pyJoin t.sep t.columns ++ pyJoin ['\n'] (t.rows.map (rowJoin t.sep))

/-- BaseCarrot._column_id: raise CarrotError when the name is absent,
otherwise return the first index of the name in columns. -/
def column_id (t : Table) (columnName : List Char) : Except PyErr Nat :=
  if columnName ∈ t.columns then .ok (t.columns.indexOf columnName)
  else .error (.carrot .unknownColumn)

/-- Loop of BaseCarrot.find: return the first line whose field at the
resolved index equals the data, None when the scan ends; an index past
the end of a line raises IndexError. -/
def findLoop (cid : Nat) (data : List Char) : List Row → Except PyErr (Option Row)
  | [] => .ok none
  | r :: rs =>
    match rowGet r cid with
    | none => .error .indexError
    | some v => if v == data then .ok (some r) else findLoop cid data rs

/-- BaseCarrot.find. -/
def find (t : Table) (name data : List Char) : Except PyErr (Option Row) :=
  match column_id t name with
  | .error e => .error e
  | .ok cid => findLoop cid data t.rows

/-- Loop of BaseCarrot.findAll: collect every line whose field at the
resolved index equals the data, in storage order. -/
def findAllLoop (cid : Nat) (data : List Char) : List Row → Except PyErr (List Row)
  | [] => .ok []
  | r :: rs =>
    match rowGet r cid with
    | none => .error .indexError
    | some v =>
      match findAllLoop cid data rs with
      | .error e => .error e
      | .ok ms => .ok (if v == data then r :: ms else ms)

/-- BaseCarrot.findAll: the collected matches when there are any,
Python None (here Option.none) when len(matchs) is zero. -/
def findAll (t : Table) (name data : List Char) : Except PyErr (Option (List Row)) :=
  match column_id t name with
  | .error e => .error e
  | .ok cid =>
    match findAllLoop cid data t.rows with
    | .error e => .error e
    | .ok ms => .ok (if ms.length != 0 then some ms else none)

/-- Loop of BaseCarrot.getColumn: project the field at the resolved
index out of every line. -/
def getColumnLoop (cid : Nat) : List Row → Except PyErr (List (List Char))
  | [] => .ok []
  | r :: rs =>
    match rowGet r cid with
    | none => .error .indexError
    | some v =>
      match getColumnLoop cid rs with
      | .error e => .error e
      | .ok vs => .ok (v :: vs)

/-- BaseCarrot.getColumn: the source checks membership inline (the same
test as _column_id) and raises the same CarrotError when absent. -/
def getColumn (t : Table) (name : List Char) : Except PyErr (List (List Char)) :=
  if name ∈ t.columns then getColumnLoop (t.columns.indexOf name) t.rows
  else .error (.carrot .unknownColumn)

/-- BaseCarrot.add: raise on a field count below or above len(columns);
otherwise the source appends the plain string made of a newline plus the
sep-join of the arguments (not a tuple of the fields) to self.lines. -/
def add (t : Table) (args : List (List Char)) : Except PyErr Table :=
  if args.length < t.columns.length then
    .error (.carrot .tooFewColumns)
  else if args.length > t.columns.length then
    .error (.carrot .tooManyColumns)
  else
    .ok { t with rows := t.rows ++ [Row.raw ('\n' :: pyJoin t.sep args)] }

/-- BaseCarrot.set: the source binds the method object _column_id to the
local column_id without calling it, so no column lookup happens; the
first loop iteration evaluates line[column_id] with a method object as
the index, which raises TypeError for a tuple or string line.  With no
lines the loop body never runs and the call returns normally, leaving
the table unchanged. -/
def set (t : Table) (column columnMatch newValue : List Char) : Except PyErr Table :=
  match t.rows with
  | [] => .ok t
  | _ :: _ => .error .typeError

/-- BaseCarrot.setAll: same method-object slip as set, hence the same
behaviour: TypeError on the first line, no-op when there are no lines. -/
def setAll (t : Table) (column columnMatch newValue : List Char) : Except PyErr Table :=
  match t.rows with
  | [] => .ok t
  | _ :: _ => .error .typeError

/-- BaseCarrot.addColumn: the source first runs self.columns.append(name).
self.columns is only ever None (constructor) or the tuple produced by
parse, and neither has an append method, so the call raises
AttributeError before any state changes.  The later per-line loop would
in any case only rebind a loop-local variable. -/
def addColumn (t : Table) (name defaultValue : List Char) : Except PyErr Table :=
  .error .attributeError

/-- BaseCarrot.removeColumn: _column_id is genuinely called first, so an
absent name raises the CarrotError of column_id; for a present name the
source then runs self.columns.pop(column_id) on the tuple produced by
parse, which has no pop method, raising AttributeError. -/
def removeColumn (t : Table) (column : List Char) : Except PyErr Table :=
  match column_id t column with
  | .error e => .error e
  | .ok _ => .error .attributeError

/-- BaseCarrot._verify_integrity: compare every line length with
len(columns); on a mismatch return False, or the error value when one is
supplied; otherwise return True.  The Sum carries the Python return
value: a bool or the caller-supplied sentinel. -/
def verify_integrity_impl (t : Table) (errorValue : Option (List Char)) :
    Sum Bool (List Char) :=
  let lengths := t.rows.map rowLen
  if (lengths.filter (fun n => n != t.columns.length)).length != 0 then
    match errorValue with
    | none => Sum.inl false
    | some v => Sum.inr v
  else Sum.inl true

/-- BaseCarrot.verify_integrity: the source calls _verify_integrity()
but has no return statement, so the caller always receives Python None
(modelled as Option.none), never a bool; it also accepts no sentinel. -/
def verify_integrity (t : Table) : Option Bool :=
  let _check := verify_integrity_impl t none
  none

/-- Whether a stored line matches: its field at the given index equals
the data (the comparison performed by find and findAll). -/
def rowMatch (cid : Nat) (data : List Char) (r : Row) : Bool :=
  rowGet r cid == some data

end Carrot

namespace Carrot

/- ===== concrete tables for the claim evaluations ===== -/

/-- Table with columns (a, b) and the single row (1, 2), separator comma. -/
def tC1 : Table :=
  { columns := [['a'], ['b']], rows := [Row.tup [['1'], ['2']]], sep := [','] }

/-- Table with columns (k, v) and rows (a,1), (a,2), (b,3). -/
def tC2 : Table :=
  { columns := [['k'], ['v']],
    rows := [Row.tup [['a'], ['1']], Row.tup [['a'], ['2']], Row.tup [['b'], ['3']]],
    sep := [','] }

/-- Table with columns (k, v) and no rows. -/
def tC3 : Table := { columns := [['k'], ['v']], rows := [], sep := [','] }

/-- Table with columns (k, v), one well-formed row. -/
def tC3full : Table :=
  { columns := [['k'], ['v']], rows := [Row.tup [['x'], ['y']]], sep := [','] }

/-- Table with columns (k, v) and no rows. -/
def tC4 : Table := { columns := [['k'], ['v']], rows := [], sep := [','] }

/-- Table with the single column a and the single row (x). -/
def tC5 : Table := { columns := [['a']], rows := [Row.tup [['x']]], sep := [','] }

/-- Table with the single column a and the single row (x). -/
def tC6 : Table := { columns := [['a']], rows := [Row.tup [['x']]], sep := [','] }

/-- Table with the single column a and the single row (x). -/
def tC7 : Table := { columns := [['a']], rows := [Row.tup [['x']]], sep := [','] }

/- ===== C1 ===== -/

/-- C1: round-trip fails on the code.  For the table with columns (a, b)
and row (1, 2), submit produces the text a,b1,2 with no newline between
the header and the row, and parsing that text back with the same
separator yields the three columns a, b1, 2 and no rows, not the
original table. -/
theorem c1_submit_roundtrip_fails :
    submit tC1 = ['a', ',', 'b', '1', ',', '2'] ∧
    parse (submit tC1) tC1.sep =
      { columns := [['a'], ['b', '1'], ['2']], rows := [], sep := [','] } ∧
    parse (submit tC1) tC1.sep ≠ tC1 :=
  ⟨rfl, by decide, by decide⟩

/- ===== C2 ===== -/

/-- C2: on the table with columns (k, v) and rows (a,1), (a,2), (b,3),
both set and setAll raise TypeError instead of updating the first or all
matching rows: the source never calls _column_id and indexes each line
with the method object itself. -/
theorem c2_set_setAll_raise_typeerror :
    set tC2 ['k'] ['a'] ['9'] = .error PyErr.typeError ∧
    setAll tC2 ['k'] ['a'] ['9'] = .error PyErr.typeError :=
  ⟨rfl, rfl⟩

/- ===== C3 ===== -/

/-- C3: with the unknown column name z, find, findAll, getColumn and
removeColumn do raise the unknown-column CarrotError, but set and setAll
never perform the lookup: on a table with no rows they return normally
(no error at all), and on a table with a row they raise TypeError, never
the unknown-column error. -/
theorem c3_set_setAll_skip_column_lookup :
    set tC3 ['z'] ['a'] ['9'] = .ok tC3 ∧
    setAll tC3 ['z'] ['a'] ['9'] = .ok tC3 ∧
    set tC3full ['z'] ['a'] ['9'] = .error PyErr.typeError ∧
    find tC3 ['z'] ['a'] = .error (PyErr.carrot CarrotMsg.unknownColumn) ∧
    findAll tC3 ['z'] ['a'] = .error (PyErr.carrot CarrotMsg.unknownColumn) ∧
    getColumn tC3 ['z'] = .error (PyErr.carrot CarrotMsg.unknownColumn) ∧
    removeColumn tC3 ['z'] = .error (PyErr.carrot CarrotMsg.unknownColumn) :=
  ⟨rfl, rfl, rfl, rfl, rfl, rfl, rfl⟩

/- ===== C4 ===== -/

/-- C4: on the two-column table with no rows, add with two fields does
append exactly one new line and the too-few and too-many cases do raise
the two CarrotError variants without mutating anything, but the appended
line is the plain string newline-1-comma-2, not the pair of fields. -/
theorem c4_add_appends_string_not_fields :
    add tC4 [['1'], ['2']] =
      .ok { tC4 with rows := [Row.raw ['\n', '1', ',', '2']] } ∧
    Row.raw ['\n', '1', ',', '2'] ≠ Row.tup [['1'], ['2']] ∧
    add tC4 [['1']] = .error (PyErr.carrot CarrotMsg.tooFewColumns) ∧
    add tC4 [['1'], ['2'], ['3']] = .error (PyErr.carrot CarrotMsg.tooManyColumns) :=
  ⟨rfl, by decide, rfl, rfl⟩

/- ===== C5 ===== -/

/-- C5: on the well-formed one-column table the inner helper
_verify_integrity does return True (and False on a mismatched table),
but the public verify_integrity has no return statement and always hands
the caller Python None, never a bool. -/
theorem c5_verify_integrity_returns_none :
    verify_integrity tC5 = none ∧
    verify_integrity_impl tC5 none = Sum.inl true ∧
    verify_integrity_impl { tC5 with rows := [Row.tup [['x'], ['y']]] } none =
      Sum.inl false :=
  ⟨rfl, rfl, rfl⟩

/- ===== C6 ===== -/

/-- C6: addColumn raises AttributeError on every table (columns is the
tuple produced by parse and has no append method); it never appends the
name or the default value. -/
theorem c6_addColumn_raises :
    addColumn tC6 ['b'] ['U'] = .error PyErr.attributeError :=
  rfl

/- ===== C7 ===== -/

/-- C7: the add-then-remove column round trip cannot restore anything:
its first step addColumn already raises AttributeError, so the composite
errors instead of returning the original table. -/
theorem c7_addColumn_removeColumn_raises :
    (addColumn tC7 ['e'] ['X']).bind (fun u => removeColumn u ['e']) =
      .error PyErr.attributeError :=
  rfl

/- ===== helper lemmas ===== -/

/-- The split scan always emits at least one piece. -/
theorem splitAux_ne_nil (sep : List Char) (s : List Char) :
    ∀ (skip : Nat) (acc : List Char), splitAux sep s skip acc ≠ [] := by
  induction s with
  | nil => intro skip acc; simp [splitAux]
  | cons c rest ih =>
    intro skip acc
    cases skip with
    | succ n => simp only [splitAux]; exact ih n acc
    | zero =>
      by_cases h : sep.isPrefixOf (c :: rest)
      · simp [splitAux, h]
      · simp only [splitAux, if_neg h]; exact ih 0 (c :: acc)

/-- Python str.split never returns an empty list of pieces. -/
theorem pySplit_ne_nil (sep s : List Char) : pySplit sep s ≠ [] := by
  cases sep with
  | nil => simp [pySplit]
  | cons c cs => exact splitAux_ne_nil (c :: cs) s 0 []

/-- A line index below the length of a stored line is in bounds. -/
theorem rowGet_of_lt {r : Row} {cid : Nat} (h : cid < rowLen r) :
    ∃ v, rowGet r cid = some v := by
  cases r with
  | tup fs => exact ⟨fs.get ⟨cid, h⟩, by simp [rowGet, List.get?_eq_get h]⟩
  | raw s => exact ⟨[s.get ⟨cid, h⟩], by simp [rowGet, List.get?_eq_get h]⟩

/-- With the index in bounds for every line, the findAll loop raises
nothing and collects exactly the matching lines, in storage order. -/
theorem findAllLoop_eq (cid : Nat) (data : List Char) :
    ∀ rows : List Row, (∀ r ∈ rows, cid < rowLen r) →
      findAllLoop cid data rows = .ok (rows.filter (rowMatch cid data)) := by
  intro rows
  induction rows with
  | nil => intro _; rfl
  | cons r rs ih =>
    intro h
    obtain ⟨v, hv⟩ := rowGet_of_lt (h r (List.mem_cons_self r rs))
    have hrs := ih (fun x hx => h x (List.mem_cons_of_mem r hx))
    simp only [findAllLoop, hv, hrs, List.filter_cons, rowMatch]
    by_cases hvd : v == data
    · simp [hv, hvd]
    · simp [hv, hvd]

/-- With the index in bounds for every line, the find loop raises
nothing. -/
theorem findLoop_ok (cid : Nat) (data : List Char) :
    ∀ rows : List Row, (∀ r ∈ rows, cid < rowLen r) →
      ∃ res, findLoop cid data rows = .ok res := by
  intro rows
  induction rows with
  | nil => intro _; exact ⟨none, rfl⟩
  | cons r rs ih =>
    intro h
    obtain ⟨v, hv⟩ := rowGet_of_lt (h r (List.mem_cons_self r rs))
    obtain ⟨res, hres⟩ := ih (fun x hx => h x (List.mem_cons_of_mem r hx))
    by_cases hvd : v == data
    · exact ⟨some r, by simp [findLoop, hv, hvd]⟩
    · exact ⟨res, by simp [findLoop, hv, hvd, hres]⟩

/-- With the index in bounds for every line, the getColumn loop raises
nothing. -/
theorem getColumnLoop_ok (cid : Nat) :
    ∀ rows : List Row, (∀ r ∈ rows, cid < rowLen r) →
      ∃ res, getColumnLoop cid rows = .ok res := by
  intro rows
  induction rows with
  | nil => intro _; exact ⟨[], rfl⟩
  | cons r rs ih =>
    intro h
    obtain ⟨v, hv⟩ := rowGet_of_lt (h r (List.mem_cons_self r rs))
    obtain ⟨res, hres⟩ := ih (fun x hx => h x (List.mem_cons_of_mem r hx))
    exact ⟨v :: res, by simp [getColumnLoop, hv, hres]⟩

/-- The first index of a present element is below the list length. -/
theorem indexOf_lt_of_mem {name : List Char} :
    ∀ {l : List (List Char)}, name ∈ l → l.indexOf name < l.length := by
  intro l
  induction l with
  | nil => intro h; cases h
  | cons a as ih =>
    intro h
    rw [List.indexOf_cons]
    cases hx : a == name with
    | true => simp
    | false =>
      simp only [cond_false, List.length_cons, Nat.succ_lt_succ_iff]
      apply ih
      rcases List.mem_cons.mp h with h1 | h2
      · exact absurd (beq_iff_eq.mpr h1.symm) (by simp [hx])
      · exact h2

/-- For a present name, column_id succeeds with an index below the
column count. -/
theorem column_id_ok (t : Table) (name : List Char) (hmem : name ∈ t.columns) :
    column_id t name = .ok (t.columns.indexOf name) ∧
      t.columns.indexOf name < t.columns.length := by
  refine ⟨by simp [column_id, hmem], ?_⟩
  exact indexOf_lt_of_mem hmem

/- ===== C8 ===== -/

/-- C8: parsing the empty stream yields exactly the single empty-string
column and no rows, and for every input text and separator the parsed
columns sequence is non-empty, because the first physical line is always
consumed as the header and splitting it yields at least one field. -/
theorem c8_parse_header :
    (∀ sep : List Char, parse [] sep = { columns := [[]], rows := [], sep := sep }) ∧
    (∀ text sep : List Char, (parse text sep).columns ≠ []) := by
  constructor
  · intro sep
    cases sep with
    | nil => rfl
    | cons c cs => rfl
  · intro text sep
    show (parse text sep).columns ≠ []
    unfold parse
    cases hL : pySplit ['\n'] (pyRstrip text) with
    | nil => exact absurd hL (pySplit_ne_nil _ _)
    | cons l0 rest =>
      simp only [hL, List.map_cons, List.headD_cons]
      exact pySplit_ne_nil sep l0

/- ===== C9 ===== -/

/-- C9: for a present column name, on a table all of whose lines have
exactly one field per column, findAll raises nothing and returns exactly
the lines matching the value at that column, in storage order, packed in
some when at least one line matches and the distinguished none when no
line matches. -/
theorem c9_findAll_matches (t : Table) (name data : List Char)
    (hmem : name ∈ t.columns)
    (hwf : ∀ r ∈ t.rows, rowLen r = t.columns.length) :
    findAll t name data =
      .ok (if t.rows.filter (rowMatch (t.columns.indexOf name) data) = [] then none
           else some (t.rows.filter (rowMatch (t.columns.indexOf name) data))) := by
  obtain ⟨hcid, hlt⟩ := column_id_ok t name hmem
  have hb : ∀ r ∈ t.rows, t.columns.indexOf name < rowLen r :=
    fun r hr => (hwf r hr) ▸ hlt
  simp only [findAll, hcid, findAllLoop_eq _ _ _ hb]
  by_cases h : t.rows.filter (rowMatch (t.columns.indexOf name) data) = []
  · simp [h]
  · simp [h, List.length_eq_zero]

/-- Table with columns (k, v) and rows (a,1), (a,2), (b,3), used to
instantiate the findAll theorem. -/
def tC9 : Table :=
  { columns := [['k'], ['v']],
    rows := [Row.tup [['a'], ['1']], Row.tup [['a'], ['2']], Row.tup [['b'], ['3']]],
    sep := [','] }

/-- C9 witness: the findAll theorem instantiated at the three-row table,
column k and value a, where the first two rows match. -/
theorem c9_findAll_matches_witness :
    (['k'] ∈ tC9.columns) ∧
    (∀ r ∈ tC9.rows, rowLen r = tC9.columns.length) ∧
    findAll tC9 ['k'] ['a'] =
      .ok (if tC9.rows.filter (rowMatch (tC9.columns.indexOf ['k']) ['a']) = [] then none
           else some (tC9.rows.filter (rowMatch (tC9.columns.indexOf ['k']) ['a']))) :=
  ⟨by decide, by decide, c9_findAll_matches tC9 ['k'] ['a'] (by decide) (by decide)⟩

/- ===== C10 ===== -/

/-- C10: for a present column name and a table all of whose lines have
exactly one field per column, every line access performed by find,
findAll and getColumn is in bounds, so all three return normally (the
IndexError branch of the embedding is unreachable). -/
theorem c10_reads_in_bounds (t : Table) (name data : List Char)
    (hmem : name ∈ t.columns)
    (hwf : ∀ r ∈ t.rows, rowLen r = t.columns.length) :
    (∃ res, find t name data = .ok res) ∧
    (∃ res, findAll t name data = .ok res) ∧
    (∃ res, getColumn t name = .ok res) := by
  obtain ⟨hcid, hlt⟩ := column_id_ok t name hmem
  have hb : ∀ r ∈ t.rows, t.columns.indexOf name < rowLen r :=
    fun r hr => (hwf r hr) ▸ hlt
  refine ⟨?_, ?_, ?_⟩
  · obtain ⟨res, hres⟩ := findLoop_ok (t.columns.indexOf name) data t.rows hb
    exact ⟨res, by unfold find; rw [hcid]; exact hres⟩
  · refine ⟨if (t.rows.filter (rowMatch (t.columns.indexOf name) data)).length != 0
        then some (t.rows.filter (rowMatch (t.columns.indexOf name) data)) else none, ?_⟩
    simp only [findAll, hcid, findAllLoop_eq _ _ _ hb]
  · obtain ⟨res, hres⟩ := getColumnLoop_ok (t.columns.indexOf name) t.rows hb
    refine ⟨res, ?_⟩
    unfold getColumn
    rw [if_pos hmem]
    exact hres

/-- Table with columns (k, v) and one row (x, y), used to instantiate
the bounds-safety theorem. -/
def tC10 : Table :=
  { columns := [['k'], ['v']], rows := [Row.tup [['x'], ['y']]], sep := [','] }

/-- C10 witness: the bounds-safety theorem instantiated at a concrete
well-formed table and the present column v. -/
theorem c10_reads_in_bounds_witness :
    (['v'] ∈ tC10.columns) ∧
    (∀ r ∈ tC10.rows, rowLen r = tC10.columns.length) ∧
    ((∃ res, find tC10 ['v'] ['y'] = .ok res) ∧
     (∃ res, findAll tC10 ['v'] ['y'] = .ok res) ∧
     (∃ res, getColumn tC10 ['v'] = .ok res)) :=
  ⟨by decide, by decide, c10_reads_in_bounds tC10 ['v'] ['y'] (by decide) (by decide)⟩

end Carrot
